import Mathlib

/-!
# Verification of `pals_2025_demographics.py`

Shallow embedding of the demographic aggregation script.  Python `dict`s are
modelled as insertion-ordered association lists (`List (String × α)`); Python
`float`s are modelled as exact rationals (`ℚ`); fallible code (dictionary
indexing that can raise `KeyError`, division that can raise
`ZeroDivisionError`, failing fetches) is modelled with `Option`/`Except`.
-/

/-- Lookup in an insertion-ordered association list: value at the first
occurrence of the key, as Python `d[k]` / `d.get(k)` (dict keys are unique in
Python, so first occurrence is the only one). -/
def listLookup {α : Type} (l : List (String × α)) (k : String) : Option α :=
  (l.find? (fun p => p.1 == k)).map Prod.snd

/-- Python `int(x)` applied to a (rational-modelled) float: truncation toward
zero. -/
def pyInt (q : ℚ) : Int := if 0 ≤ q then ⌊q⌋ else ⌈q⌉

/-! ## The parsed response shape (`CensusDataResponse` dataclasses) -/

/-- `CensusDataResponse.TableDefinition.ColumnDefinition`. -/
structure ColumnDefinition where
  indent : Int
  name : String
deriving DecidableEq

/-- `CensusDataResponse.TableDefinition`: `columns` is a dict column-id →
column definition. -/
structure TableDefinition where
  columns : List (String × ColumnDefinition)
  title : String
deriving DecidableEq

/-- `CensusDataResponse.DataItem`: `estimate` is a dict column-id → float. -/
structure DataItem where
  estimate : List (String × ℚ)
deriving DecidableEq

/-- `CensusDataResponse`: `data` is geo-id → table-id → `DataItem`;
`tables` is table-id → `TableDefinition`. -/
structure CensusDataResponse where
  data : List (String × List (String × DataItem))
  tables : List (String × TableDefinition)
deriving DecidableEq

/-! ## Category definitions (constants of the source) -/

def AGE_ID : String := "B01001"
def RACE_ID : String := "B03002"
def LANGUAGE_ID : String := "B16007"
def INCOME_ID : String := "B19001"

/-- `age_categories` from `get_age_data`. -/
def age_categories : List (String × List String) :=
  [("0-9", ["Under 5 years", "5 to 9 years"]),
   ("10-19", ["10 to 14 years", "15 to 17 years", "18 and 19 years"]),
   ("20-29", ["20 years", "21 years", "22 to 24 years", "25 to 29 years"]),
   ("30-39", ["30 to 34 years", "35 to 39 years"]),
   ("40-49", ["40 to 44 years", "45 to 49 years"]),
   ("50-59", ["50 to 54 years", "55 to 59 years"]),
   ("60-69", ["60 and 61 years", "62 to 64 years", "65 and 66 years",
              "67 to 69 years"]),
   ("70+", ["70 to 74 years", "75 to 79 years", "80 to 84 years",
            "85 years and over"])]

/-- `race_categories` from `get_race_data` (direct column ids). -/
def race_categories : List (String × List String) :=
  [("White", ["B03002003"]),
   ("Hispanic", ["B03002012"]),
   ("Black", ["B03002004"]),
   ("Asian", ["B03002006"]),
   ("Other", ["B03002007", "B03002008"]),
   ("Two+", ["B03002009"])]

/-- `language_categories` from `get_language_data` (direct column ids). -/
def language_categories : List (String × List String) :=
  [("English Only", ["B16007009"]),
   ("Spanish", ["B16007010"]),
   ("Other", ["B16007011", "B16007012", "B16007013"])]

/-- `income_categories` from `get_income_data`. -/
def income_categories : List (String × List String) :=
  [("$0-24k", ["Less than $10,000", "$10,000 to $14,999",
               "$15,000 to $19,999", "$20,000 to $24,999"]),
   ("$25k-49k", ["$25,000 to $29,999", "$30,000 to $34,999",
                 "$35,000 to $39,999", "$40,000 to $44,999",
                 "$45,000 to $49,999"]),
   ("$50k-74k", ["$50,000 to $59,999", "$60,000 to $74,999"]),
   ("$75k-100k", ["$75,000 to $99,999"]),
   ("$100k-$124k", ["$100,000 to $124,999"]),
   ("$125k-$149k", ["$125,000 to $149,999"]),
   ("$150k-$200k", ["$150,000 to $199,999"]),
   ("$200k+", ["$200,000 or more"])]

/-! ## Label-based categorization (`get_age_data`, `get_income_data`) -/

/-- The inner double loop of `get_age_data`/`get_income_data`: for each label
in order, all column ids (in column order) whose definition's `name` equals
the label. -/
def matchingColumns (columns : List (String × ColumnDefinition))
    (labels : List String) : List String :=
  (labels.map (fun label =>
    (columns.filter (fun p => p.2.name == label)).map Prod.fst)).flatten

/-- The `total += int(estimates[column_name])` loop: sums truncated estimates
at the given column ids, failing (Python `KeyError`) if an id has no
estimate.  The loop runs left to right; the recursion combines in the same
order with `+` on `ℤ`. -/
def sumColsOpt (est : List (String × ℚ)) : List String → Option Int
  | [] => some 0
  | c :: rest => do
      let v ← listLookup est c
      let t ← sumColsOpt est rest
      pure (pyInt v + t)

/-- The per-category loop of `get_age_data`/`get_income_data`, building the
totals dict in category order. -/
def categorizeLabels (columns : List (String × ColumnDefinition))
    (est : List (String × ℚ)) :
    List (String × List String) → Option (List (String × Int))
  | [] => some []
  | cat :: rest => do
      let t ← sumColsOpt est (matchingColumns columns cat.2)
      let r ← categorizeLabels columns est rest
      pure ((cat.1, t) :: r)

/-- `get_age_data`, as a function of the parsed response: looks up
`data[geo][AGE_ID].estimate` and `tables[AGE_ID].columns` (the source repeats
the `tables` lookup inside the loop; every category has a nonempty label
list, so hoisting it preserves success and failure), then categorizes. -/
def get_age_data (resp : CensusDataResponse) (geo : String) :
    Option (List (String × Int)) := do
  let geoTables ← listLookup resp.data geo
  let item ← listLookup geoTables AGE_ID
  let table ← listLookup resp.tables AGE_ID
  categorizeLabels table.columns item.estimate age_categories

/-- `get_income_data`, analogous to `get_age_data`. -/
def get_income_data (resp : CensusDataResponse) (geo : String) :
    Option (List (String × Int)) := do
  let geoTables ← listLookup resp.data geo
  let item ← listLookup geoTables INCOME_ID
  let table ← listLookup resp.tables INCOME_ID
  categorizeLabels table.columns item.estimate income_categories

/-! ## Id-based categorization (`get_race_data`, `get_language_data`) -/

/-- The inner loop of `get_race_data`/`get_language_data`:
`total += int(data[geo][TID].estimate[column_num])`, with the nested dict
lookups performed inside the loop as in the source. -/
def sumIdsOpt (resp : CensusDataResponse) (geo tid : String) :
    List String → Option Int
  | [] => some 0
  | cn :: rest => do
      let geoTables ← listLookup resp.data geo
      let item ← listLookup geoTables tid
      let v ← listLookup item.estimate cn
      let t ← sumIdsOpt resp geo tid rest
      pure (pyInt v + t)

/-- The per-category loop of `get_race_data`/`get_language_data`. -/
def categorizeIds (resp : CensusDataResponse) (geo tid : String) :
    List (String × List String) → Option (List (String × Int))
  | [] => some []
  | cat :: rest => do
      let t ← sumIdsOpt resp geo tid cat.2
      let r ← categorizeIds resp geo tid rest
      pure ((cat.1, t) :: r)

/-- `get_race_data` as a function of the parsed response. -/
def get_race_data (resp : CensusDataResponse) (geo : String) :
    Option (List (String × Int)) :=
  categorizeIds resp geo RACE_ID race_categories

/-- `get_language_data` as a function of the parsed response. -/
def get_language_data (resp : CensusDataResponse) (geo : String) :
    Option (List (String × Int)) :=
  categorizeIds resp geo LANGUAGE_ID language_categories

/-! ## Hub aggregation (`GeoData`, `get_geo_data`, `sum_totals`,
`get_hub_data`, top-level loop) -/

/-- The `GeoData` dataclass: four per-statistic category-totals dicts. -/
structure GeoData where
  age_totals : List (String × Int)
  race_totals : List (String × Int)
  language_totals : List (String × Int)
  income_totals : List (String × Int)
deriving DecidableEq

/-- The environment a hub sees: the four per-geography data getters
(`get_age_data(geo)` etc. after fetching and parsing).  A `.error` models an
exception raised by the Fetcher (`FetchError`/`ParseError`) or the Category
Mapper (`KeyError`). -/
structure Env where
  age : String → Except String (List (String × Int))
  race : String → Except String (List (String × Int))
  language : String → Except String (List (String × Int))
  income : String → Except String (List (String × Int))

/-- One line written to standard output: the diagnostic
`error in {geo}` line, a degenerate hub-name-only row, or a full row of the
hub name followed by its numeric columns. -/
inductive OutLine where
  | diag (geo : String)
  | bare (hub : String)
  | row (hub : String) (cols : List ℚ)
deriving DecidableEq

/-- `get_geo_data`: runs the four getters in order inside a `try`; on the
first exception a diagnostic line naming the geography is printed and the
exception is re-raised. -/
def get_geo_data (env : Env) (geo : String) :
    List OutLine × Except String GeoData :=
  match (do
      let a ← env.age geo
      let r ← env.race geo
      let l ← env.language geo
      let i ← env.income geo
      pure (GeoData.mk a r l i) : Except String GeoData) with
  | .ok g => ([], .ok g)
  | .error e => ([OutLine.diag geo], .error e)

/-- Python `current.get(num, 0)`. -/
def dictGetD (d : List (String × Int)) (k : String) (v : Int) : Int :=
  (listLookup d k).getD v

/-- Python dict assignment `d[k] = v`: an existing key is updated in place
(its position preserved), a new key is appended at the end. -/
def dictSet (d : List (String × Int)) (k : String) (v : Int) :
    List (String × Int) :=
  if d.any (fun p => p.1 == k) then
    d.map (fun p => if p.1 == k then (k, v) else p)
  else d ++ [(k, v)]

/-- `sum_totals(current, add)`: for each key of `add` in order, sets
`current[num] = current.get(num, 0) + add[num]` and accumulates `add[num]`
into the returned sum.  Returns the updated dict and the sum (the mutation of
`current` is made explicit; the running sum is combined in loop order with
`+` on `ℤ`). -/
def sum_totals (current : List (String × Int)) :
    List (String × Int) → List (String × Int) × Int
  | [] => (current, 0)
  | p :: rest =>
      let cur2 := dictSet current p.1 (dictGetD current p.1 0 + p.2)
      let r := sum_totals cur2 rest
      (r.1, p.2 + r.2)

/-- Round-to-nearest integer with ties to even, the convention of Python's
built-in `round` (floats are modelled as exact rationals). -/
def rnearestEven (x : ℚ) : Int :=
  if x - ⌊x⌋ < 1/2 then ⌊x⌋
  else if 1/2 < x - ⌊x⌋ then ⌊x⌋ + 1
  else if ⌊x⌋ % 2 = 0 then ⌊x⌋ else ⌊x⌋ + 1

/-- Python `round(x, 1)`: nearest multiple of 1/10, ties to the even
tenth. -/
def pyRound1 (x : ℚ) : ℚ := (rnearestEven (x * 10) : ℚ) / 10

/-- `as_percent(num, total) = round(num / total * 100, 1)`; `total == 0`
raises `ZeroDivisionError`. -/
def as_percent (num : ℚ) (total : Int) : Except String ℚ :=
  if total = 0 then .error "ZeroDivisionError"
  else .ok (pyRound1 (num / total * 100))

/-- The fixed age category keys, in the order the row indexes them. -/
def ageKeys : List String :=
  ["0-9", "10-19", "20-29", "30-39", "40-49", "50-59", "60-69", "70+"]

/-- The fixed race category keys, in row order. -/
def raceKeys : List String :=
  ["White", "Hispanic", "Black", "Asian", "Other", "Two+"]

/-- The fixed language category keys, in row order. -/
def languageKeys : List String := ["English Only", "Spanish", "Other"]

/-- The fixed income category keys, in row order. -/
def incomeKeys : List String :=
  ["$0-24k", "$25k-49k", "$50k-74k", "$75k-100k", "$100k-$124k",
   "$125k-$149k", "$150k-$200k", "$200k+"]

/-- One group of the `cols` list: `as_percent(final_totals.m[k], total)` for
each key in order; a missing key raises `KeyError`, a zero `total` raises
`ZeroDivisionError`, either aborting the row. -/
def pctList (m : List (String × Int)) (total : Int) :
    List String → Except String (List ℚ)
  | [] => .ok []
  | k :: rest => do
      let v ← match listLookup m k with
        | some v => Except.ok v
        | none => Except.error "KeyError"
      let p ← as_percent (v : ℚ) total
      let r ← pctList m total rest
      pure (p :: r)

/-- The numeric columns of a row, in source order: total population
`round(age_sum / 1_000_000, 1)`, then the 8 age, 6 race, 3 language and 8
income percentages.  (The population entry cannot fail, so computing it
before or after the percentage groups yields the same failure behavior.) -/
def buildCols (fin : GeoData) (age_sum race_sum language_sum income_sum : Int) :
    Except String (List ℚ) :=
  match pctList fin.age_totals age_sum ageKeys with
  | .error e => .error e
  | .ok ap =>
    match pctList fin.race_totals race_sum raceKeys with
    | .error e => .error e
    | .ok rp =>
      match pctList fin.language_totals language_sum languageKeys with
      | .error e => .error e
      | .ok lp =>
        match pctList fin.income_totals income_sum incomeKeys with
        | .error e => .error e
        | .ok ip =>
          .ok (pyRound1 ((age_sum : ℚ) / 1000000) :: (ap ++ rp ++ lp ++ ip))

/-- The initial accumulator of `get_hub_data`: a fresh `GeoData()` and the
four zero sums `age_sum, race_sum, language_sum, income_sum`. -/
def initAcc : GeoData × Int × Int × Int × Int :=
  (GeoData.mk [] [] [] [], 0, 0, 0, 0)

/-- The `for geo in geo_list` loop of `get_hub_data`: per geography, get its
data (an exception propagates, aborting the hub) and fold each statistic's
totals into the accumulator with `sum_totals`, adding the returned sums. -/
def hubLoop (env : Env) (acc : GeoData × Int × Int × Int × Int) :
    List String → List OutLine × Except String (GeoData × Int × Int × Int × Int)
  | [] => ([], .ok acc)
  | g :: rest =>
    match get_geo_data env g with
    | (out, .error e) => (out, .error e)
    | (out, .ok gd) =>
      let fin := acc.1
      let aR := sum_totals fin.age_totals gd.age_totals
      let rR := sum_totals fin.race_totals gd.race_totals
      let lR := sum_totals fin.language_totals gd.language_totals
      let iR := sum_totals fin.income_totals gd.income_totals
      let acc2 : GeoData × Int × Int × Int × Int :=
        (GeoData.mk aR.1 rR.1 lR.1 iR.1,
         acc.2.1 + aR.2, acc.2.2.1 + rR.2, acc.2.2.2.1 + lR.2,
         acc.2.2.2.2 + iR.2)
      let next := hubLoop env acc2 rest
      (out ++ next.1, next.2)

/-- `get_hub_data`: run the geography loop; if `age_sum == 0` print only the
hub name, otherwise build and print the full row (a `KeyError` or
`ZeroDivisionError` while building the row propagates with nothing printed
for the hub). -/
def get_hub_data (env : Env) (hub : String) (geo_list : List String) :
    List OutLine × Except String Unit :=
  match hubLoop env initAcc geo_list with
  | (out, .error e) => (out, .error e)
  | (out, .ok st) =>
    let fin := st.1
    let age_sum := st.2.1
    let race_sum := st.2.2.1
    let language_sum := st.2.2.2.1
    let income_sum := st.2.2.2.2
    if age_sum = 0 then (out ++ [OutLine.bare hub], .ok ())
    else
      match buildCols fin age_sum race_sum language_sum income_sum with
      | .ok cs => (out ++ [OutLine.row hub cs], .ok ())
      | .error e => (out, .error e)

/-- The top-level `for hub in hub_list: get_hub_data(hub)` loop: hubs are
processed sequentially with no try/except around them, so an error raised by
one hub propagates and terminates the run. -/
def runAll (env : Env) :
    List (String × List String) → List OutLine × Except String Unit
  | [] => ([], .ok ())
  | (hub, gl) :: rest =>
    match get_hub_data env hub gl with
    | (out, .error e) => (out, .error e)
    | (out, .ok _) =>
      let next := runAll env rest
      (out ++ next.1, next.2)

/-- The hardcoded `hub_list` configuration: hub name → ordered geography
list (insertion order of the source dict). -/
def hub_list : List (String × List String) :=
  [("Southern CA",
    ["05000US06037", "05000US06073", "05000US06059", "05000US06065",
     "05000US06071", "05000US06029", "05000US06111", "05000US06083",
     "05000US06079", "05000US06025"]),
   ("Northern CA",
    ["05000US06001", "05000US06003", "05000US06005", "05000US06007",
     "05000US06009", "05000US06011", "05000US06013", "05000US06015",
     "05000US06017", "05000US06019", "05000US06021", "05000US06023",
     "05000US06027", "05000US06031", "05000US06033", "05000US06035",
     "05000US06039", "05000US06041", "05000US06043", "05000US06045",
     "05000US06047", "05000US06049", "05000US06051", "05000US06053",
     "05000US06055", "05000US06057", "05000US06061", "05000US06063",
     "05000US06067", "05000US06069", "05000US06075", "05000US06077",
     "05000US06081", "05000US06085", "05000US06087", "05000US06089",
     "05000US06091", "05000US06093", "05000US06095", "05000US06097",
     "05000US06099", "05000US06101", "05000US06103", "05000US06105",
     "05000US06107", "05000US06109", "05000US06113", "05000US06115"]),
   ("Pacfic Northwest", ["04000US53", "04000US41"]),
   ("Ohio", ["04000US39"]),
   ("Illinois",
    ["04000US17", "05000US55059", "05000US18089", "05000US18127",
     "05000US18111", "05000US18073", "05000US18091"]),
   ("Philadelphia",
    ["33000US428", "05000US10005", "05000US42071", "33000US276"]),
   ("New York City", ["33000US408"]),
   ("New England",
    ["04000US23", "04000US50", "04000US33", "04000US25", "05000US09003",
     "05000US09007", "05000US09013", "05000US09015", "05000US09011"]),
   ("Mid Atlantic",
    ["33000US548", "05000US24029", "05000US24011", "05000US24045",
     "05000US24039", "05000US24047"]),
   ("South Atlantic", ["04000US37", "04000US45"])]

/-! ## Association-list dictionary lemmas -/

theorem listLookup_cons {α : Type} (p : String × α) (l : List (String × α))
    (k : String) :
    listLookup (p :: l) k = if p.1 = k then some p.2 else listLookup l k := by
  by_cases h : p.1 = k <;> simp [listLookup, List.find?_cons, h]

theorem listLookup_eq_none_of_not_mem {α : Type} {d : List (String × α)}
    {k : String} (h : k ∉ d.map Prod.fst) : listLookup d k = none := by
  induction d with
  | nil => rfl
  | cons p l ih =>
    simp only [List.map_cons, List.mem_cons, not_or] at h
    rw [listLookup_cons, if_neg (fun he => h.1 he.symm), ih h.2]

theorem listLookup_isSome_of_mem {α : Type} {d : List (String × α)}
    {k : String} (h : k ∈ d.map Prod.fst) : (listLookup d k).isSome := by
  induction d with
  | nil => simp at h
  | cons p l ih =>
    rw [listLookup_cons]
    by_cases hp : p.1 = k
    · simp [hp]
    · simp only [List.map_cons, List.mem_cons] at h
      rcases h with h | h
    
      · exact absurd h.symm hp
      · simp only [if_neg hp]
        exact ih h

theorem listLookup_eq_none_of_not_any {α : Type} {d : List (String × α)}
    {k : String} (h : ¬ d.any (fun p => p.1 == k) = true) :
    listLookup d k = none := by
  apply listLookup_eq_none_of_not_mem
  intro hm
  apply h
  simp only [List.any_eq_true, beq_iff_eq]
  rcases List.mem_map.1 hm with ⟨p, hp, hk⟩
  exact ⟨p, hp, hk⟩

theorem listLookup_append_of_none {α : Type} {l₁ : List (String × α)}
    (l₂ : List (String × α)) {k : String} (h : listLookup l₁ k = none) :
    listLookup (l₁ ++ l₂) k = listLookup l₂ k := by
  induction l₁ with
  | nil => rfl
  | cons p l ih =>
    rw [listLookup_cons] at h
    by_cases hp : p.1 = k
    · simp [hp] at h
    · rw [if_neg hp] at h
      rw [List.cons_append, listLookup_cons, if_neg hp, ih h]

theorem listLookup_append_of_some {α : Type} {l₁ : List (String × α)}
    (l₂ : List (String × α)) {k : String} {v : α}
    (h : listLookup l₁ k = some v) :
    listLookup (l₁ ++ l₂) k = some v := by
  induction l₁ with
  | nil => simp [listLookup] at h
  | cons p l ih =>
    rw [listLookup_cons] at h
    rw [List.cons_append, listLookup_cons]
    by_cases hp : p.1 = k
    · rwa [if_pos hp] at h ⊢
    · rw [if_neg hp] at h ⊢
      exact ih h

/-! ## `dictSet` lemmas -/

theorem lookup_overwrite {d : List (String × Int)} {k : String} (v : Int)
    (h : d.any (fun p => p.1 == k) = true) :
    listLookup (d.map (fun p => if p.1 == k then (k, v) else p)) k = some v := by
  induction d with
  | nil => simp at h
  | cons p ds ih =>
    by_cases hp : p.1 = k
    · simp [List.map_cons, hp, listLookup_cons]
    · have hb : (p.1 == k) = false := by simpa using hp
      have h2 : ds.any (fun p => p.1 == k) = true := by
        simpa [hp] using h
      simp only [List.map_cons, hb, Bool.false_eq_true, if_false]
      rw [listLookup_cons, if_neg hp]
      exact ih h2

theorem lookup_overwrite_ne {d : List (String × Int)} {k q : String} (v : Int)
    (hne : q ≠ k) :
    listLookup (d.map (fun p => if p.1 == k then (k, v) else p)) q =
      listLookup d q := by
  induction d with
  | nil => rfl
  | cons p ds ih =>
    by_cases hp : p.1 = k
    · have hb : (p.1 == k) = true := by simpa using hp
      simp only [List.map_cons, hb, if_true]
      rw [listLookup_cons, listLookup_cons]
      rw [if_neg (show ¬((k, v).1 = q) from fun he => hne he.symm),
        if_neg (show ¬(p.1 = q) from fun he => hne (hp ▸ he).symm)]
      exact ih
    · have hb : (p.1 == k) = false := by simpa using hp
      simp only [List.map_cons, hb, Bool.false_eq_true, if_false]
      rw [listLookup_cons, listLookup_cons]
      by_cases hq : p.1 = q
      · rw [if_pos hq, if_pos hq]
      · rw [if_neg hq, if_neg hq]
        exact ih

theorem dictSet_lookup_self (d : List (String × Int)) (k : String) (v : Int) :
    listLookup (dictSet d k v) k = some v := by
  unfold dictSet
  by_cases h : d.any (fun p => p.1 == k) = true
  · rw [if_pos h]
    exact lookup_overwrite v h
  · rw [if_neg h]
    rw [listLookup_append_of_none _ (listLookup_eq_none_of_not_any h)]
    rw [listLookup_cons]
    simp

theorem dictSet_lookup_ne (d : List (String × Int)) (k : String) (v : Int)
    {q : String} (hne : q ≠ k) :
    listLookup (dictSet d k v) q = listLookup d q := by
  unfold dictSet
  by_cases h : d.any (fun p => p.1 == k) = true
  · rw [if_pos h]
    exact lookup_overwrite_ne v hne
  · rw [if_neg h]
    cases hq : listLookup d q with
    | some w => rw [listLookup_append_of_some _ hq]
    | none =>
      rw [listLookup_append_of_none _ hq, listLookup_cons,
        if_neg (fun he => hne he.symm)]
      rfl

/-- Sum of all values of a category mapping. -/
def valsum (d : List (String × Int)) : Int := (d.map Prod.snd).sum

theorem valsum_cons (p : String × Int) (l : List (String × Int)) :
    valsum (p :: l) = p.2 + valsum l := by
  simp [valsum]

theorem valsum_overwrite {k : String} (v : Int) :
    ∀ d : List (String × Int), (d.map Prod.fst).Nodup →
      d.any (fun p => p.1 == k) = true →
      valsum (d.map (fun p => if p.1 == k then (k, v) else p)) =
        valsum d - dictGetD d k 0 + v := by
  intro d
  induction d with
  | nil => intro _ h; simp at h
  | cons p ds ih =>
    intro hnd h
    by_cases hp : p.1 = k
    · have hb : (p.1 == k) = true := by simpa using hp
      have hk : k ∉ ds.map Prod.fst := hp ▸ (List.nodup_cons.1 hnd).1
      have hmap : ds.map (fun q => if q.1 == k then (k, v) else q) = ds := by
        conv_rhs => rw [show ds = ds.map id from (List.map_id ds).symm]
        apply List.map_congr_left
        intro q hq
        have hqk : (q.1 == k) = false := by
          simp only [beq_eq_false_iff_ne, ne_eq]
          exact fun he => hk (he ▸ List.mem_map_of_mem Prod.fst hq)
        simp [hqk]
      have hget : dictGetD (p :: ds) k 0 = p.2 := by
        simp [dictGetD, listLookup_cons, hp]
      simp only [List.map_cons, hb, if_true, hmap]
      rw [valsum_cons, valsum_cons, hget]
      ring
    · have hb : (p.1 == k) = false := by simpa using hp
      have h2 : ds.any (fun q => q.1 == k) = true := by simpa [hp] using h
      have hnd2 : (ds.map Prod.fst).Nodup := (List.nodup_cons.1 hnd).2
      have hget : dictGetD (p :: ds) k 0 = dictGetD ds k 0 := by
        simp [dictGetD, listLookup_cons, hp]
      simp only [List.map_cons, hb, Bool.false_eq_true, if_false]
      rw [valsum_cons, valsum_cons, hget, ih hnd2 h2]
      ring

theorem valsum_dictSet (d : List (String × Int)) (k : String) (v : Int)
    (hnd : (d.map Prod.fst).Nodup) :
    valsum (dictSet d k v) = valsum d - dictGetD d k 0 + v := by
  unfold dictSet
  by_cases h : d.any (fun p => p.1 == k) = true
  · rw [if_pos h]
    exact valsum_overwrite v d hnd h
  · rw [if_neg h]
    have hnone : listLookup d k = none := listLookup_eq_none_of_not_any h
    simp [valsum, dictGetD, hnone]

theorem dictSet_fst_nodup {d : List (String × Int)} (k : String) (v : Int)
    (hnd : (d.map Prod.fst).Nodup) :
    ((dictSet d k v).map Prod.fst).Nodup := by
  unfold dictSet
  by_cases h : d.any (fun p => p.1 == k) = true
  · rw [if_pos h, List.map_map]
    have : (Prod.fst ∘ fun p : String × Int =>
        if p.1 == k then (k, v) else p) = Prod.fst := by
      funext p
      by_cases hp : p.1 = k <;> simp [hp]
    rw [this]
    exact hnd
  · rw [if_neg h, List.map_append]
    have hk : k ∉ d.map Prod.fst := by
      intro hm
      apply h
      simp only [List.any_eq_true, beq_iff_eq]
      rcases List.mem_map.1 hm with ⟨p, hp, hk2⟩
      exact ⟨p, hp, hk2⟩
    simp only [List.map_cons, List.map_nil]
    rw [List.nodup_append]
    exact ⟨hnd, List.nodup_singleton k, by simpa using hk⟩

/-! ## `sum_totals` lemmas -/

theorem sum_totals_snd (add : List (String × Int)) :
    ∀ current, (sum_totals current add).2 = (add.map Prod.snd).sum := by
  induction add with
  | nil => intro current; rfl
  | cons p rest ih =>
    intro current
    simp [sum_totals, ih]

theorem sum_totals_frame (add : List (String × Int)) (k : String)
    (h : listLookup add k = none) :
    ∀ current, listLookup (sum_totals current add).1 k = listLookup current k := by
  induction add with
  | nil => intro current; rfl
  | cons p rest ih =>
    intro current
    rw [listLookup_cons] at h
    by_cases hp : p.1 = k
    · rw [if_pos hp] at h
      exact absurd h (by simp)
    · rw [if_neg hp] at h
      show listLookup (sum_totals (dictSet current p.1 _) rest).1 k = _
      rw [ih h, dictSet_lookup_ne _ _ _ (fun he => hp he.symm)]

theorem sum_totals_update (add : List (String × Int))
    (hadd : (add.map Prod.fst).Nodup) (k : String) (v : Int)
    (h : listLookup add k = some v) :
    ∀ current, listLookup (sum_totals current add).1 k =
      some (dictGetD current k 0 + v) := by
  induction add with
  | nil => intro current; simp [listLookup] at h
  | cons p rest ih =>
    intro current
    rw [listLookup_cons] at h
    by_cases hp : p.1 = k
    · rw [if_pos hp] at h
      have hv : p.2 = v := by simpa using h
      have hk : listLookup rest k = none :=
        listLookup_eq_none_of_not_mem (hp ▸ (List.nodup_cons.1 hadd).1)
      show listLookup (sum_totals (dictSet current p.1 _) rest).1 k = _
      rw [sum_totals_frame rest k hk, hp, dictSet_lookup_self, hv]
    · rw [if_neg hp] at h
      have hadd2 : (rest.map Prod.fst).Nodup := (List.nodup_cons.1 hadd).2
      show listLookup (sum_totals (dictSet current p.1 _) rest).1 k = _
      rw [ih hadd2 h]
      have : listLookup (dictSet current p.1 (dictGetD current p.1 0 + p.2)) k =
          listLookup current k :=
        dictSet_lookup_ne _ _ _ (fun he => hp he.symm)
      rw [dictGetD, this, dictGetD]

/-- C9: `sum_totals(current, add)` sets `current[k]` to
`current.get(k, 0) + add[k]` for every key `k` of `add`, leaves every key of
`current` not in `add` unchanged, and returns the sum of `add`'s values,
independent of `current`. -/
theorem sum_totals_spec (current add : List (String × Int))
    (hadd : (add.map Prod.fst).Nodup) :
    (∀ k v, listLookup add k = some v →
      listLookup (sum_totals current add).1 k =
        some (dictGetD current k 0 + v))
    ∧ (∀ k, listLookup add k = none →
      listLookup (sum_totals current add).1 k = listLookup current k)
    ∧ (sum_totals current add).2 = (add.map Prod.snd).sum := by
  refine ⟨?_, ?_, sum_totals_snd add current⟩
  · intro k v h
    exact sum_totals_update add hadd k v h current
  · intro k h
    exact sum_totals_frame add k h current

/-- Witness for C9 at `current = [("a", 1), ("c", 5)]`,
`add = [("a", 2), ("b", 3)]`: key `"a"` becomes `1 + 2`, fresh key `"b"`
becomes `0 + 3`, untouched key `"c"` keeps its value, and the returned sum is
`2 + 3 = 5`. -/
theorem sum_totals_spec_witness :
    listLookup (sum_totals [("a", 1), ("c", 5)] [("a", 2), ("b", 3)]).1 "a" =
      some 3
    ∧ listLookup (sum_totals [("a", 1), ("c", 5)] [("a", 2), ("b", 3)]).1 "b" =
      some 3
    ∧ listLookup (sum_totals [("a", 1), ("c", 5)] [("a", 2), ("b", 3)]).1 "c" =
      some 5
    ∧ (sum_totals [("a", 1), ("c", 5)] [("a", 2), ("b", 3)]).2 = 5 := by
  have h := sum_totals_spec [("a", 1), ("c", 5)] [("a", 2), ("b", 3)]
    (by decide)
  exact ⟨h.1 "a" 2 (by decide), h.1 "b" 3 (by decide),
    h.2.1 "c" (by decide), h.2.2⟩

theorem sum_totals_nodup (add : List (String × Int)) :
    ∀ current, (current.map Prod.fst).Nodup →
      ((sum_totals current add).1.map Prod.fst).Nodup := by
  induction add with
  | nil => intro current h; exact h
  | cons p rest ih =>
    intro current h
    exact ih _ (dictSet_fst_nodup _ _ h)

theorem sum_totals_valsum (add : List (String × Int)) :
    ∀ current, (current.map Prod.fst).Nodup →
      valsum (sum_totals current add).1 =
        valsum current + (sum_totals current add).2 := by
  induction add with
  | nil => intro current _; simp [sum_totals]
  | cons p rest ih =>
    intro current h
    simp only [sum_totals]
    rw [ih _ (dictSet_fst_nodup _ _ h), valsum_dictSet _ _ _ h]
    ring

/-- The invariant carried by the `get_hub_data` accumulator: each totals dict
has duplicate-free keys, and each running sum equals the value-sum of its
dict. -/
def accInv (acc : GeoData × Int × Int × Int × Int) : Prop :=
  (acc.1.age_totals.map Prod.fst).Nodup
  ∧ (acc.1.race_totals.map Prod.fst).Nodup
  ∧ (acc.1.language_totals.map Prod.fst).Nodup
  ∧ (acc.1.income_totals.map Prod.fst).Nodup
  ∧ acc.2.1 = valsum acc.1.age_totals
  ∧ acc.2.2.1 = valsum acc.1.race_totals
  ∧ acc.2.2.2.1 = valsum acc.1.language_totals
  ∧ acc.2.2.2.2 = valsum acc.1.income_totals

theorem hubLoop_inv (env : Env) (gl : List String) :
    ∀ acc, accInv acc → ∀ out st,
      hubLoop env acc gl = (out, .ok st) → accInv st := by
  induction gl with
  | nil =>
    intro acc hinv out st h
    rw [hubLoop] at h
    obtain ⟨-, h2⟩ := Prod.mk.inj h
    cases h2
    exact hinv
  | cons g rest ih =>
    intro acc hinv out st h
    rw [hubLoop] at h
    cases hg : get_geo_data env g with
    | mk o res =>
      rw [hg] at h
      cases res with
      | error e => simp at h
      | ok gd =>
        simp only [] at h
        obtain ⟨-, h2⟩ := Prod.mk.inj h
        obtain ⟨hn1, hn2, hn3, hn4, hv1, hv2, hv3, hv4⟩ := hinv
        apply ih _ ?_ _ st
        · rw [← h2]
        · refine ⟨sum_totals_nodup _ _ hn1, sum_totals_nodup _ _ hn2,
            sum_totals_nodup _ _ hn3, sum_totals_nodup _ _ hn4, ?_, ?_, ?_, ?_⟩
          · show acc.2.1 + _ = valsum (sum_totals acc.1.age_totals gd.age_totals).1
            rw [sum_totals_valsum _ _ hn1, hv1]
          · show acc.2.2.1 + _ = valsum (sum_totals acc.1.race_totals gd.race_totals).1
            rw [sum_totals_valsum _ _ hn2, hv2]
          · show acc.2.2.2.1 + _ =
              valsum (sum_totals acc.1.language_totals gd.language_totals).1
            rw [sum_totals_valsum _ _ hn3, hv3]
          · show acc.2.2.2.2 + _ =
              valsum (sum_totals acc.1.income_totals gd.income_totals).1
            rw [sum_totals_valsum _ _ hn4, hv4]

/-- C3: for every hub environment and geography list, the incrementally
accumulated grand total per statistic type (the sum of the per-geography
sums returned by `sum_totals`) equals the sum of all values in the final
accumulated category mapping for that statistic type. -/
theorem grand_totals_match_final_maps (env : Env) (gl : List String)
    (out : List OutLine) (fin : GeoData) (a r l i : Int)
    (h : hubLoop env initAcc gl = (out, .ok (fin, a, r, l, i))) :
    a = valsum fin.age_totals ∧ r = valsum fin.race_totals
    ∧ l = valsum fin.language_totals ∧ i = valsum fin.income_totals := by
  have hinit : accInv initAcc := by
    refine ⟨?_, ?_, ?_, ?_, rfl, rfl, rfl, rfl⟩ <;> simp [initAcc]
  have := hubLoop_inv env gl initAcc hinit out (fin, a, r, l, i) h
  exact ⟨this.2.2.2.2.1, this.2.2.2.2.2.1, this.2.2.2.2.2.2.1,
    this.2.2.2.2.2.2.2⟩

/-- Category totals in which every key of `ks` carries the value 1. -/
def unitTotals (ks : List String) : List (String × Int) :=
  ks.map (fun k => (k, 1))

/-- An environment in which every geography successfully yields unit totals
for every category of every statistic. -/
def envOk : Env :=
  ⟨fun _ => .ok (unitTotals ageKeys), fun _ => .ok (unitTotals raceKeys),
   fun _ => .ok (unitTotals languageKeys), fun _ => .ok (unitTotals incomeKeys)⟩

/-- Witness for C3: two geographies with unit totals give grand totals
16/12/6/16 which equal the value-sums of the final mappings (every key
carrying 2). -/
theorem grand_totals_match_final_maps_witness :
    (16 : Int) = valsum (ageKeys.map (fun k => (k, (2 : Int))))
    ∧ (12 : Int) = valsum (raceKeys.map (fun k => (k, (2 : Int))))
    ∧ (6 : Int) = valsum (languageKeys.map (fun k => (k, (2 : Int))))
    ∧ (16 : Int) = valsum (incomeKeys.map (fun k => (k, (2 : Int)))) :=
  grand_totals_match_final_maps envOk ["a", "b"] []
    (GeoData.mk (ageKeys.map (fun k => (k, 2))) (raceKeys.map (fun k => (k, 2)))
      (languageKeys.map (fun k => (k, 2))) (incomeKeys.map (fun k => (k, 2))))
    16 12 6 16 rfl

/-! ## Label-matching lemmas (C2, C6, C8) -/

/-- The spec's description of a label-based category total: over all column
ids whose column label exactly matches some label in the category's label
list, sum the geography's estimates cast to integer by truncation. -/
def specLabelTotal (columns : List (String × ColumnDefinition))
    (est : List (String × ℚ)) (labels : List String) : Int :=
  ((columns.filter (fun p => labels.any (fun lab => p.2.name == lab))).map
    (fun p => pyInt ((listLookup est p.1).getD 0))).sum

theorem sumColsOpt_some {est : List (String × ℚ)} :
    ∀ {ids : List String} {t : Int}, sumColsOpt est ids = some t →
      t = (ids.map (fun c => pyInt ((listLookup est c).getD 0))).sum := by
  intro ids
  induction ids with
  | nil =>
    intro t h
    simp only [sumColsOpt, Option.some.injEq] at h
    subst h
    rfl
  | cons c rest ih =>
    intro t h
    simp only [sumColsOpt, Option.bind_eq_bind, Option.bind_eq_some] at h
    obtain ⟨v, hv, t2, ht2, hsum⟩ := h
    have hsum2 : pyInt v + t2 = t := by simpa using hsum
    simp [← hsum2, hv, ih ht2]

theorem sum_filter_or {α : Type} (g : α → Int) (p q : α → Bool)
    (hdisj : ∀ a, p a = true → q a = true → False) :
    ∀ xs : List α,
      ((xs.filter (fun a => p a || q a)).map g).sum =
        ((xs.filter p).map g).sum + ((xs.filter q).map g).sum := by
  intro xs
  induction xs with
  | nil => simp
  | cons x rest ih =>
    by_cases hp : p x = true
    · have hq : q x = false := by
        cases hqv : q x with
        | false => rfl
        | true => exact False.elim (hdisj x hp hqv)
      simp only [List.filter_cons, hp, hq, Bool.true_or, if_true]
      simp only [Bool.false_eq_true, if_false, List.map_cons, List.sum_cons, ih]
      ring
    · have hp2 : p x = false := by
        cases hpv : p x with
        | false => rfl
        | true => exact absurd hpv hp
      by_cases hq : q x = true
      · simp only [List.filter_cons, hp2, hq, Bool.false_or, if_true,
          Bool.false_eq_true, if_false, List.map_cons, List.sum_cons, ih]
        ring
      · have hq2 : q x = false := by
          cases hqv : q x with
          | false => rfl
          | true => exact absurd hqv hq
        simp only [List.filter_cons, hp2, hq2, Bool.or_self,
          Bool.false_eq_true, if_false, ih]

theorem matching_sum (cols : List (String × ColumnDefinition))
    (est : List (String × ℚ)) :
    ∀ labels : List String, labels.Nodup →
      ((matchingColumns cols labels).map
        (fun c => pyInt ((listLookup est c).getD 0))).sum =
        specLabelTotal cols est labels := by
  intro labels
  induction labels with
  | nil =>
    intro _
    simp [matchingColumns, specLabelTotal]
  | cons l ls ih =>
    intro hnd
    have hl : l ∉ ls := (List.nodup_cons.1 hnd).1
    have hnd2 : ls.Nodup := (List.nodup_cons.1 hnd).2
    have hdisj : ∀ a : String × ColumnDefinition,
        (a.2.name == l) = true →
        (ls.any fun lab => a.2.name == lab) = true → False := by
      intro a h1 h2
      rw [beq_iff_eq] at h1
      simp only [List.any_eq_true, beq_iff_eq] at h2
      obtain ⟨lab, hmem, heq⟩ := h2
      refine hl ?_
      rw [h1.symm.trans heq]
      exact hmem
    rw [show matchingColumns cols (l :: ls) =
        ((cols.filter (fun p => p.2.name == l)).map Prod.fst) ++
          matchingColumns cols ls from by simp [matchingColumns]]
    rw [List.map_append, List.sum_append, ih hnd2]
    simp only [specLabelTotal]
    have hpred : (fun p : String × ColumnDefinition =>
        (l :: ls).any (fun lab => p.2.name == lab)) =
        fun p => (p.2.name == l) || ls.any (fun lab => p.2.name == lab) := by
      funext p
      simp [List.any_cons]
    rw [hpred, sum_filter_or _ _ _ hdisj cols]
    congr 1
    rw [List.map_map]
    rfl

theorem categorizeLabels_some (cols : List (String × ColumnDefinition))
    (est : List (String × ℚ)) :
    ∀ cats : List (String × List String), (∀ c ∈ cats, c.2.Nodup) →
      ∀ out, categorizeLabels cols est cats = some out →
        out = cats.map (fun cat => (cat.1, specLabelTotal cols est cat.2)) := by
  intro cats
  induction cats with
  | nil =>
    intro _ out h
    simp only [categorizeLabels, Option.some.injEq] at h
    simp [← h]
  | cons cat rest ih =>
    intro hnd out h
    simp only [categorizeLabels, Option.bind_eq_bind, Option.bind_eq_some] at h
    obtain ⟨t, ht, r, hr, hout⟩ := h
    have hout2 : (cat.1, t) :: r = out := by simpa using hout
    have h1 : t = specLabelTotal cols est cat.2 := by
      rw [sumColsOpt_some ht, matching_sum cols est cat.2 (hnd cat (by simp))]
    rw [← hout2, h1, ih (fun c hc => hnd c (List.mem_cons_of_mem _ hc)) r hr]
    simp

/-- C2: for the label-based categorizers (age, income), each category's
total equals the sum, over all column ids whose column label exactly matches
some label in the category's label list, of the geography's estimates at
those ids cast to integer by truncation (`specLabelTotal`). -/
theorem label_totals_match_spec (resp : CensusDataResponse) (geo : String) :
    (∀ totals, get_age_data resp geo = some totals →
      ∃ geoTables item table,
        listLookup resp.data geo = some geoTables ∧
        listLookup geoTables AGE_ID = some item ∧
        listLookup resp.tables AGE_ID = some table ∧
        totals = age_categories.map (fun cat =>
          (cat.1, specLabelTotal table.columns item.estimate cat.2)))
    ∧ (∀ totals, get_income_data resp geo = some totals →
      ∃ geoTables item table,
        listLookup resp.data geo = some geoTables ∧
        listLookup geoTables INCOME_ID = some item ∧
        listLookup resp.tables INCOME_ID = some table ∧
        totals = income_categories.map (fun cat =>
          (cat.1, specLabelTotal table.columns item.estimate cat.2))) := by
  constructor
  · intro totals h
    simp only [get_age_data, Option.bind_eq_bind, Option.bind_eq_some] at h
    obtain ⟨gt, hgt, item, hitem, table, htable, hcat⟩ := h
    exact ⟨gt, item, table, hgt, hitem, htable,
      categorizeLabels_some _ _ age_categories (by decide) totals hcat⟩
  · intro totals h
    simp only [get_income_data, Option.bind_eq_bind, Option.bind_eq_some] at h
    obtain ⟨gt, hgt, item, hitem, table, htable, hcat⟩ := h
    exact ⟨gt, item, table, hgt, hitem, htable,
      categorizeLabels_some _ _ income_categories (by decide) totals hcat⟩

/-- A concrete parsed response realizing the spec scenario: the `"0-9"` age
category's two labels match columns `c1` and `c2` carrying estimates 5 and 7,
and the income table is present but has no columns. -/
def wresp : CensusDataResponse :=
  { data := [("g", [(AGE_ID, ⟨[("c1", 5), ("c2", 7)]⟩),
                    (INCOME_ID, ⟨[]⟩)])],
    tables := [(AGE_ID, ⟨[("c1", ⟨1, "Under 5 years"⟩),
                          ("c2", ⟨1, "5 to 9 years"⟩)], "Age"⟩),
               (INCOME_ID, ⟨[], "Income"⟩)] }

/-- Witness for C2 on `wresp`: the age categorizer returns `"0-9" ↦ 5 + 7 =
12` and 0 for the other categories, matching the spec totals; the income
categorizer succeeds with all-zero totals. -/
theorem label_totals_match_spec_witness :
    (∃ geoTables item table,
      listLookup wresp.data "g" = some geoTables ∧
      listLookup geoTables AGE_ID = some item ∧
      listLookup wresp.tables AGE_ID = some table ∧
      ([("0-9", 12), ("10-19", 0), ("20-29", 0), ("30-39", 0), ("40-49", 0),
        ("50-59", 0), ("60-69", 0), ("70+", 0)] : List (String × Int)) =
        age_categories.map (fun cat =>
          (cat.1, specLabelTotal table.columns item.estimate cat.2)))
    ∧ (∃ geoTables item table,
      listLookup wresp.data "g" = some geoTables ∧
      listLookup geoTables INCOME_ID = some item ∧
      listLookup wresp.tables INCOME_ID = some table ∧
      ([("$0-24k", 0), ("$25k-49k", 0), ("$50k-74k", 0), ("$75k-100k", 0),
        ("$100k-$124k", 0), ("$125k-$149k", 0), ("$150k-$200k", 0),
        ("$200k+", 0)] : List (String × Int)) =
        income_categories.map (fun cat =>
          (cat.1, specLabelTotal table.columns item.estimate cat.2))) :=
  ⟨(label_totals_match_spec wresp "g").1 _ rfl,
   (label_totals_match_spec wresp "g").2 _ rfl⟩

/-- C6: a label matching zero column definitions contributes nothing to a
category total and raises no error: prepending it changes neither the
matched column set nor the (still-returned) total, and a category made only
of such labels totals 0. -/
theorem zero_match_label (cols : List (String × ColumnDefinition))
    (est : List (String × ℚ)) (labels : List String) (l : String)
    (h : ∀ p ∈ cols, p.2.name ≠ l) :
    matchingColumns cols (l :: labels) = matchingColumns cols labels
    ∧ sumColsOpt est (matchingColumns cols (l :: labels)) =
        sumColsOpt est (matchingColumns cols labels)
    ∧ sumColsOpt est (matchingColumns cols [l]) = some 0
    ∧ ∀ (cname : String) (rest : List (String × List String)),
        categorizeLabels cols est ((cname, l :: labels) :: rest) =
          categorizeLabels cols est ((cname, labels) :: rest) := by
  have hfil : cols.filter (fun p => p.2.name == l) = [] := by
    rw [List.filter_eq_nil_iff]
    intro p hp
    simpa using h p hp
  have h1 : matchingColumns cols (l :: labels) = matchingColumns cols labels := by
    simp [matchingColumns, hfil]
  have h2 : matchingColumns cols [l] = [] := by
    simp [matchingColumns, hfil]
  refine ⟨h1, by rw [h1], by rw [h2]; rfl, ?_⟩
  intro cname rest
  simp only [categorizeLabels, h1]

/-- Witness for C6: with one column named `"A"`, the label `"B"` matches
nothing, so `["B", "A"]` behaves exactly like `["A"]` and `["B"]` alone
totals 0. -/
theorem zero_match_label_witness :
    matchingColumns [("c1", ⟨1, "A"⟩)] ["B", "A"] =
      matchingColumns [("c1", ⟨1, "A"⟩)] ["A"]
    ∧ sumColsOpt [("c1", 1)] (matchingColumns [("c1", ⟨1, "A"⟩)] ["B", "A"]) =
        sumColsOpt [("c1", 1)] (matchingColumns [("c1", ⟨1, "A"⟩)] ["A"])
    ∧ sumColsOpt [("c1", 1)] (matchingColumns [("c1", ⟨1, "A"⟩)] ["B"]) =
        some 0
    ∧ categorizeLabels [("c1", ⟨1, "A"⟩)] [("c1", 1)] [("0-9", ["B", "A"])] =
        categorizeLabels [("c1", ⟨1, "A"⟩)] [("c1", 1)] [("0-9", ["A"])] := by
  have h := zero_match_label [("c1", ⟨1, "A"⟩)] [("c1", 1)] ["A"] "B" (by decide)
  exact ⟨h.1, h.2.1, h.2.2.1, h.2.2.2 "0-9" []⟩

theorem categorizeLabels_keys (cols : List (String × ColumnDefinition))
    (est : List (String × ℚ)) :
    ∀ (cats : List (String × List String)) out,
      categorizeLabels cols est cats = some out →
      out.map Prod.fst = cats.map Prod.fst := by
  intro cats
  induction cats with
  | nil =>
    intro out h
    simp only [categorizeLabels, Option.some.injEq] at h
    simp [← h]
  | cons cat rest ih =>
    intro out h
    simp only [categorizeLabels, Option.bind_eq_bind, Option.bind_eq_some] at h
    obtain ⟨t, ht, r, hr, hout⟩ := h
    have hout2 : (cat.1, t) :: r = out := by simpa using hout
    rw [← hout2]
    simp [ih r hr]

theorem categorizeIds_keys (resp : CensusDataResponse) (geo tid : String) :
    ∀ (cats : List (String × List String)) out,
      categorizeIds resp geo tid cats = some out →
      out.map Prod.fst = cats.map Prod.fst := by
  intro cats
  induction cats with
  | nil =>
    intro out h
    simp only [categorizeIds, Option.some.injEq] at h
    simp [← h]
  | cons cat rest ih =>
    intro out h
    simp only [categorizeIds, Option.bind_eq_bind, Option.bind_eq_some] at h
    obtain ⟨t, ht, r, hr, hout⟩ := h
    have hout2 : (cat.1, t) :: r = out := by simpa using hout
    rw [← hout2]
    simp [ih r hr]

/-- C8: each categorizer that returns successfully returns a mapping whose
key list is exactly its fixed category list in definition order, so keyed
lookups into it (and hence into hub totals accumulated from it) succeed. -/
theorem categorizer_keys (resp : CensusDataResponse) (geo : String) :
    (∀ t, get_age_data resp geo = some t →
      t.map Prod.fst = ageKeys ∧ ∀ k ∈ ageKeys, (listLookup t k).isSome)
    ∧ (∀ t, get_race_data resp geo = some t →
      t.map Prod.fst = raceKeys ∧ ∀ k ∈ raceKeys, (listLookup t k).isSome)
    ∧ (∀ t, get_language_data resp geo = some t →
      t.map Prod.fst = languageKeys ∧
        ∀ k ∈ languageKeys, (listLookup t k).isSome)
    ∧ (∀ t, get_income_data resp geo = some t →
      t.map Prod.fst = incomeKeys ∧
        ∀ k ∈ incomeKeys, (listLookup t k).isSome) := by
  refine ⟨?_, ?_, ?_, ?_⟩
  · intro t h
    simp only [get_age_data, Option.bind_eq_bind, Option.bind_eq_some] at h
    obtain ⟨gt, hgt, item, hitem, table, htable, hcat⟩ := h
    have hk : t.map Prod.fst = ageKeys := by
      rw [categorizeLabels_keys _ _ _ _ hcat]
      rfl
    exact ⟨hk, fun k hke => listLookup_isSome_of_mem (by rw [hk]; exact hke)⟩
  · intro t h
    have hk : t.map Prod.fst = raceKeys := by
      rw [categorizeIds_keys _ _ _ _ _ h]
      rfl
    exact ⟨hk, fun k hke => listLookup_isSome_of_mem (by rw [hk]; exact hke)⟩
  · intro t h
    have hk : t.map Prod.fst = languageKeys := by
      rw [categorizeIds_keys _ _ _ _ _ h]
      rfl
    exact ⟨hk, fun k hke => listLookup_isSome_of_mem (by rw [hk]; exact hke)⟩
  · intro t h
    simp only [get_income_data, Option.bind_eq_bind, Option.bind_eq_some] at h
    obtain ⟨gt, hgt, item, hitem, table, htable, hcat⟩ := h
    have hk : t.map Prod.fst = incomeKeys := by
      rw [categorizeLabels_keys _ _ _ _ hcat]
      rfl
    exact ⟨hk, fun k hke => listLookup_isSome_of_mem (by rw [hk]; exact hke)⟩

/-- A parsed response on which all four categorizers succeed: the age and
income tables have no columns (all totals 0), the race and language
estimates carry every fixed column id. -/
def wrespFull : CensusDataResponse :=
  { data := [("g",
      [(AGE_ID, ⟨[]⟩),
       (RACE_ID, ⟨[("B03002003", 0), ("B03002012", 0), ("B03002004", 0),
                   ("B03002006", 0), ("B03002007", 0), ("B03002008", 0),
                   ("B03002009", 0)]⟩),
       (LANGUAGE_ID, ⟨[("B16007009", 0), ("B16007010", 0), ("B16007011", 0),
                       ("B16007012", 0), ("B16007013", 0)]⟩),
       (INCOME_ID, ⟨[]⟩)])],
    tables := [(AGE_ID, ⟨[], "Age"⟩), (INCOME_ID, ⟨[], "Income"⟩)] }

/-- All-zero totals over a key list. -/
def zeroTotals (ks : List String) : List (String × Int) :=
  ks.map (fun k => (k, 0))

/-- Witness for C8 on `wrespFull`: each categorizer succeeds, its key list is
the fixed category list, and a sample keyed lookup succeeds. -/
theorem categorizer_keys_witness :
    ((zeroTotals ageKeys).map Prod.fst = ageKeys
      ∧ (listLookup (zeroTotals ageKeys) "0-9").isSome)
    ∧ ((zeroTotals raceKeys).map Prod.fst = raceKeys
      ∧ (listLookup (zeroTotals raceKeys) "White").isSome)
    ∧ ((zeroTotals languageKeys).map Prod.fst = languageKeys
      ∧ (listLookup (zeroTotals languageKeys) "English Only").isSome)
    ∧ ((zeroTotals incomeKeys).map Prod.fst = incomeKeys
      ∧ (listLookup (zeroTotals incomeKeys) "$200k+").isSome) := by
  have h := categorizer_keys wrespFull "g"
  have h1 := h.1 (zeroTotals ageKeys) rfl
  have h2 := h.2.1 (zeroTotals raceKeys) rfl
  have h3 := h.2.2.1 (zeroTotals languageKeys) rfl
  have h4 := h.2.2.2 (zeroTotals incomeKeys) rfl
  exact ⟨⟨h1.1, h1.2 "0-9" (by decide)⟩, ⟨h2.1, h2.2 "White" (by decide)⟩,
    ⟨h3.1, h3.2 "English Only" (by decide)⟩,
    ⟨h4.1, h4.2 "$200k+" (by decide)⟩⟩

/-! ## Rounding lemmas (C7) -/

theorem rnearestEven_spec (x : ℚ) :
    |x - rnearestEven x| ≤ 1/2
    ∧ (|x - rnearestEven x| = 1/2 → rnearestEven x % 2 = 0) := by
  have h0 : (⌊x⌋ : ℚ) ≤ x := Int.floor_le x
  have h1 : x < ⌊x⌋ + 1 := Int.lt_floor_add_one x
  unfold rnearestEven
  split_ifs with h2 h3 h4
  · constructor
    · rw [abs_of_nonneg (by linarith)]
      linarith
    · intro habs
      rw [abs_of_nonneg (by linarith)] at habs
      linarith
  · constructor
    · rw [abs_of_nonpos (by push_cast; linarith)]
      push_cast
      linarith
    · intro habs
      rw [abs_of_nonpos (by push_cast; linarith)] at habs
      push_cast at habs
      linarith
  · have hx : x - ⌊x⌋ = 1/2 := le_antisymm (not_lt.1 h3) (not_lt.1 h2)
    exact ⟨by rw [abs_of_nonneg (by linarith)]; linarith,
      fun _ => h4⟩
  · have hx : x - ⌊x⌋ = 1/2 := le_antisymm (not_lt.1 h3) (not_lt.1 h2)
    constructor
    · rw [abs_of_nonpos (by push_cast; linarith)]
      push_cast
      linarith
    · intro _
      omega

theorem pyRound1_spec (x : ℚ) :
    ∃ k : Int, pyRound1 x = (k : ℚ) / 10
    ∧ |x - (k : ℚ)/10| ≤ 1/20
    ∧ (|x - (k : ℚ)/10| = 1/20 → k % 2 = 0) := by
  obtain ⟨hle, htie⟩ := rnearestEven_spec (x * 10)
  refine ⟨rnearestEven (x * 10), rfl, ?_, ?_⟩
  · have he : x - (rnearestEven (x * 10) : ℚ)/10 =
        (x * 10 - rnearestEven (x * 10))/10 := by ring
    rw [he, abs_div]
    rw [show |(10 : ℚ)| = 10 from by norm_num]
    linarith
  · intro hh
    have he : x - (rnearestEven (x * 10) : ℚ)/10 =
        (x * 10 - rnearestEven (x * 10))/10 := by ring
    rw [he, abs_div, show |(10 : ℚ)| = 10 from by norm_num] at hh
    exact htie (by linarith)

/-- C7 (amended): for every category total `n` and nonzero grand total `t`,
the emitted percentage is `n / t * 100` rounded to one decimal place with the
round-half-EVEN (banker's) convention of Python's `round`: it is a multiple
of 0.1 within 0.05 of the exact value, and an exact tie is resolved to the
even tenth (so 6.25 rounds to 6.2, not away from zero). -/
theorem as_percent_half_even (n t : Int) (ht : t ≠ 0) :
    ∃ k : Int, as_percent (n : ℚ) t = .ok ((k : ℚ) / 10)
    ∧ |(n : ℚ) / (t : ℚ) * 100 - (k : ℚ)/10| ≤ 1/20
    ∧ (|(n : ℚ) / (t : ℚ) * 100 - (k : ℚ)/10| = 1/20 → k % 2 = 0) := by
  obtain ⟨k, h1, h2, h3⟩ := pyRound1_spec ((n : ℚ) / (t : ℚ) * 100)
  refine ⟨k, ?_, h2, h3⟩
  rw [as_percent, if_neg ht, h1]

/-- Witness for C7's amended theorem at `n = 1`, `t = 16`
(`1/16 * 100 = 6.25`, an exact tie). -/
theorem as_percent_half_even_witness :
    ∃ k : Int, as_percent ((1 : Int) : ℚ) 16 = .ok ((k : ℚ) / 10)
    ∧ |((1 : Int) : ℚ) / ((16 : Int) : ℚ) * 100 - (k : ℚ)/10| ≤ 1/20
    ∧ (|((1 : Int) : ℚ) / ((16 : Int) : ℚ) * 100 - (k : ℚ)/10| = 1/20 →
        k % 2 = 0) :=
  as_percent_half_even 1 16 (by decide)

/-- C7 counterexample: the claim's round-half-AWAY convention demands
`1/16 * 100 = 6.25 ↦ 6.3`, but `as_percent` (Python's `round`, half to even)
yields 6.2. -/
theorem as_percent_not_half_away :
    as_percent ((1 : Int) : ℚ) 16 = .ok (62/10)
    ∧ as_percent ((1 : Int) : ℚ) 16 ≠ .ok (63/10) := by
  have h : as_percent ((1 : Int) : ℚ) 16 = .ok (62/10) := by
    rw [as_percent, if_neg (by norm_num)]
    norm_num [pyRound1, rnearestEven]
  refine ⟨h, ?_⟩
  rw [h]
  intro hc
  have : (62 : ℚ)/10 = 63/10 := by
    injection hc
  norm_num at this

/-! ## Hub formatting (C10, C4, C5) -/

/-- Positive age data but all-zero race totals (race grand total 0). -/
def envZeroRace : Env :=
  ⟨fun _ => .ok (unitTotals ageKeys), fun _ => .ok (zeroTotals raceKeys),
   fun _ => .ok (unitTotals languageKeys), fun _ => .ok (unitTotals incomeKeys)⟩

/-- Positive age data but all-zero language totals. -/
def envZeroLanguage : Env :=
  ⟨fun _ => .ok (unitTotals ageKeys), fun _ => .ok (unitTotals raceKeys),
   fun _ => .ok (zeroTotals languageKeys), fun _ => .ok (unitTotals incomeKeys)⟩

/-- Positive age data but all-zero income totals. -/
def envZeroIncome : Env :=
  ⟨fun _ => .ok (unitTotals ageKeys), fun _ => .ok (unitTotals raceKeys),
   fun _ => .ok (unitTotals languageKeys), fun _ => .ok (zeroTotals incomeKeys)⟩

/-- C10: the zero-grand-total guard tests only the age sum; a hub whose age
grand total is positive (8) but whose race, language, or income grand total
is zero reaches the unguarded division and raises `ZeroDivisionError`
(emitting no row at all). -/
theorem unguarded_zero_division :
    get_hub_data envZeroRace "H" ["g"] = ([], .error "ZeroDivisionError")
    ∧ get_hub_data envZeroLanguage "H" ["g"] = ([], .error "ZeroDivisionError")
    ∧ get_hub_data envZeroIncome "H" ["g"] = ([], .error "ZeroDivisionError") :=
  ⟨rfl, rfl, rfl⟩

theorem get_geo_data_cases (env : Env) (g : String) :
    (∃ gd, get_geo_data env g = ([], .ok gd))
    ∨ (∃ e, get_geo_data env g = ([OutLine.diag g], .error e)) := by
  unfold get_geo_data
  split
  · exact .inl ⟨_, rfl⟩
  · exact .inr ⟨_, rfl⟩

theorem hubLoop_ok_out_nil (env : Env) :
    ∀ (gl : List String) acc out st,
      hubLoop env acc gl = (out, .ok st) → out = [] := by
  intro gl
  induction gl with
  | nil =>
    intro acc out st h
    rw [hubLoop] at h
    exact ((Prod.mk.inj h).1).symm
  | cons g rest ih =>
    intro acc out st h
    rw [hubLoop] at h
    rcases get_geo_data_cases env g with ⟨gd, hgd⟩ | ⟨e, hgd⟩
    · rw [hgd] at h
      simp only [] at h
      obtain ⟨h1, h2⟩ := Prod.mk.inj h
      have h3 := ih _ _ st (show hubLoop env _ rest = (_, .ok st) from by
        rw [← h2])
      rw [← h1, h3]
      rfl
    · rw [hgd] at h
      simp at h

/-- C4: if the geography loop succeeds with an accumulated age grand total
of zero, the hub emits exactly one line holding only the hub name — no
population or percentage columns. -/
theorem zero_age_sum_bare_row (env : Env) (hub : String) (gl : List String)
    (out : List OutLine) (fin : GeoData) (r l i : Int)
    (h : hubLoop env initAcc gl = (out, .ok (fin, 0, r, l, i))) :
    out = [] ∧ get_hub_data env hub gl = ([OutLine.bare hub], .ok ()) := by
  have hout : out = [] := hubLoop_ok_out_nil env gl initAcc out _ h
  refine ⟨hout, ?_⟩
  rw [get_hub_data, h]
  simp [hout]

/-- Witness for C4: a hub with an empty geography list accumulates age grand
total 0 and emits only the hub name. -/
theorem zero_age_sum_bare_row_witness :
    ([] : List OutLine) = []
    ∧ get_hub_data envOk "H" [] = ([OutLine.bare "H"], .ok ()) :=
  zero_age_sum_bare_row envOk "H" [] [] (GeoData.mk [] [] [] []) 0 0 0 rfl

/-- The ten-in-each-bucket age totals of the spec's "Ohio" scenario. -/
def ageTens : List (String × Int) :=
  [("0-9", 10), ("10-19", 10), ("20-29", 10), ("30-39", 10), ("40-49", 10),
   ("50-59", 10), ("60-69", 10), ("70+", 10)]

/-- C5: a hub with a single geography whose age category totals are 10 in
each of the 8 buckets (sum 80), and whose row is successfully emitted, has
total-population column 0 (80/1,000,000 rounded to one decimal) and every
age percentage column equal to 12.5. -/
theorem single_geo_scenario (env : Env) (hub g : String)
    (hage : env.age g = .ok ageTens)
    (hok : (get_hub_data env hub [g]).2 = .ok ()) :
    ∃ rest, get_hub_data env hub [g] =
      ([OutLine.row hub ([0, 125/10, 125/10, 125/10, 125/10, 125/10, 125/10,
        125/10, 125/10] ++ rest)], .ok ()) := by
  cases hr : env.race g with
  | error e =>
    exfalso
    have hge : get_geo_data env g = ([OutLine.diag g], .error e) := by
      unfold get_geo_data
      rw [hage, hr]
      rfl
    rw [show (get_hub_data env hub [g]).2 = .error e from by
      unfold get_hub_data
      simp only [hubLoop, hge]] at hok
    exact Except.noConfusion hok
  | ok rt =>
  cases hl : env.language g with
  | error e =>
    exfalso
    have hge : get_geo_data env g = ([OutLine.diag g], .error e) := by
      unfold get_geo_data
      rw [hage, hr, hl]
      rfl
    rw [show (get_hub_data env hub [g]).2 = .error e from by
      unfold get_hub_data
      simp only [hubLoop, hge]] at hok
    exact Except.noConfusion hok
  | ok lt =>
  cases hi : env.income g with
  | error e =>
    exfalso
    have hge : get_geo_data env g = ([OutLine.diag g], .error e) := by
      unfold get_geo_data
      rw [hage, hr, hl, hi]
      rfl
    rw [show (get_hub_data env hub [g]).2 = .error e from by
      unfold get_hub_data
      simp only [hubLoop, hge]] at hok
    exact Except.noConfusion hok
  | ok it =>
  have hge : get_geo_data env g = ([], .ok (GeoData.mk ageTens rt lt it)) := by
    unfold get_geo_data
    rw [hage, hr, hl, hi]
    rfl
  have hloop : hubLoop env initAcc [g] =
      ([], .ok (GeoData.mk ageTens (sum_totals [] rt).1 (sum_totals [] lt).1
          (sum_totals [] it).1, (80 : Int), (sum_totals [] rt).2,
          (sum_totals [] lt).2, (sum_totals [] it).2)) := by
    simp only [hubLoop, hge, initAcc]
    norm_num
    exact ⟨rfl, rfl⟩
  have hmain : get_hub_data env hub [g] =
      (match buildCols (GeoData.mk ageTens (sum_totals [] rt).1
          (sum_totals [] lt).1 (sum_totals [] it).1) 80 (sum_totals [] rt).2
          (sum_totals [] lt).2 (sum_totals [] it).2 with
       | .ok cs => ([OutLine.row hub cs], .ok ())
       | .error e => ([], .error e)) := by
    unfold get_hub_data
    rw [hloop]
    rfl
  have hap : pctList ageTens 80 ageKeys =
      .ok [pyRound1 (((10 : Int) : ℚ) / ((80 : Int) : ℚ) * 100),
        pyRound1 (((10 : Int) : ℚ) / ((80 : Int) : ℚ) * 100),
        pyRound1 (((10 : Int) : ℚ) / ((80 : Int) : ℚ) * 100),
        pyRound1 (((10 : Int) : ℚ) / ((80 : Int) : ℚ) * 100),
        pyRound1 (((10 : Int) : ℚ) / ((80 : Int) : ℚ) * 100),
        pyRound1 (((10 : Int) : ℚ) / ((80 : Int) : ℚ) * 100),
        pyRound1 (((10 : Int) : ℚ) / ((80 : Int) : ℚ) * 100),
        pyRound1 (((10 : Int) : ℚ) / ((80 : Int) : ℚ) * 100)] := rfl
  have hv : pyRound1 (((10 : Int) : ℚ) / ((80 : Int) : ℚ) * 100) = 125/10 := by
    norm_num [pyRound1, rnearestEven]
  have hpop : pyRound1 (((80 : Int) : ℚ) / 1000000) = 0 := by
    norm_num [pyRound1, rnearestEven]
  cases hbc : buildCols (GeoData.mk ageTens (sum_totals [] rt).1
      (sum_totals [] lt).1 (sum_totals [] it).1) 80 (sum_totals [] rt).2
      (sum_totals [] lt).2 (sum_totals [] it).2 with
  | error e =>
    rw [hmain] at hok
    rw [hbc] at hok
    exact absurd hok (fun hh => Except.noConfusion hh)
  | ok cs =>
    have hbc0 := hbc
    unfold buildCols at hbc
    rw [show (GeoData.mk ageTens (sum_totals [] rt).1 (sum_totals [] lt).1
        (sum_totals [] it).1).age_totals = ageTens from rfl, hap, hv] at hbc
    cases hrp : pctList (GeoData.mk ageTens (sum_totals [] rt).1
        (sum_totals [] lt).1 (sum_totals [] it).1).race_totals
        (sum_totals [] rt).2 raceKeys with
    | error e =>
      rw [hrp] at hbc
      exact absurd hbc (fun hh => Except.noConfusion hh)
    | ok rp =>
    rw [hrp] at hbc
    cases hlp : pctList (GeoData.mk ageTens (sum_totals [] rt).1
        (sum_totals [] lt).1 (sum_totals [] it).1).language_totals
        (sum_totals [] lt).2 languageKeys with
    | error e =>
      rw [hlp] at hbc
      exact absurd hbc (fun hh => Except.noConfusion hh)
    | ok lp =>
    rw [hlp] at hbc
    cases hip : pctList (GeoData.mk ageTens (sum_totals [] rt).1
        (sum_totals [] lt).1 (sum_totals [] it).1).income_totals
        (sum_totals [] it).2 incomeKeys with
    | error e =>
      rw [hip] at hbc
      exact absurd hbc (fun hh => Except.noConfusion hh)
    | ok ip =>
    rw [hip] at hbc
    have hcs : cs = pyRound1 (((80 : Int) : ℚ) / 1000000) ::
        ([(125 : ℚ)/10, 125/10, 125/10, 125/10, 125/10, 125/10, 125/10,
          125/10] ++ rp ++ lp ++ ip) := by
      have h2 : Except.ok (ε := String)
          (pyRound1 (((80 : Int) : ℚ) / 1000000) ::
            ([(125 : ℚ)/10, 125/10, 125/10, 125/10, 125/10, 125/10, 125/10,
              125/10] ++ rp ++ lp ++ ip)) = .ok cs := hbc
      exact (Except.ok.inj h2).symm
    refine ⟨rp ++ lp ++ ip, ?_⟩
    rw [hmain, hbc0]
    show ([OutLine.row hub cs], Except.ok ()) = _
    rw [hcs, hpop]
    simp [List.append_assoc]

/-- An environment realizing the C5 scenario: one geography with age totals
of 10 per bucket and unit race/language/income totals. -/
def envC5 : Env :=
  ⟨fun _ => .ok ageTens, fun _ => .ok (unitTotals raceKeys),
   fun _ => .ok (unitTotals languageKeys), fun _ => .ok (unitTotals incomeKeys)⟩

/-- Witness for C5: in the concrete scenario the row starts with population
column 0 followed by eight 12.5 age percentage columns. -/
theorem single_geo_scenario_witness :
    ∃ rest, get_hub_data envC5 "Ohio" ["g"] =
      ([OutLine.row "Ohio" ([0, 125/10, 125/10, 125/10, 125/10, 125/10,
        125/10, 125/10, 125/10] ++ rest)], .ok ()) :=
  single_geo_scenario envC5 "Ohio" "g" rfl rfl

/-! ## Failure propagation (C1) -/

theorem hubLoop_append_ok (env : Env) :
    ∀ (gs₁ : List String) acc (o : List OutLine) st,
      hubLoop env acc gs₁ = (o, .ok st) →
      ∀ rest, hubLoop env acc (gs₁ ++ rest) =
        (o ++ (hubLoop env st rest).1, (hubLoop env st rest).2) := by
  intro gs₁
  induction gs₁ with
  | nil =>
    intro acc o st h rest
    rw [hubLoop] at h
    obtain ⟨h1, h2⟩ := Prod.mk.inj h
    have hst : acc = st := Except.ok.inj h2
    rw [List.nil_append, ← h1, ← hst]
    simp
  | cons g gs2 ih =>
    intro acc o st h rest
    rw [hubLoop] at h
    cases hg : get_geo_data env g with
    | mk og res =>
      rw [hg] at h
      cases res with
      | error e => simp at h
      | ok gd =>
        simp only [] at h
        obtain ⟨h1, h2⟩ := Prod.mk.inj h
        rw [List.cons_append, hubLoop, hg]
        simp only []
        rw [ih _ (hubLoop env _ gs2).1 st (by rw [← h2]) rest]
        rw [← h1]
        simp [List.append_assoc]

theorem runAll_append_ok (env : Env) :
    ∀ (pre rest : List (String × List String)) (o₀ : List OutLine),
      runAll env pre = (o₀, .ok ()) →
      runAll env (pre ++ rest) =
        (o₀ ++ (runAll env rest).1, (runAll env rest).2) := by
  intro pre
  induction pre with
  | nil =>
    intro rest o₀ h
    rw [runAll] at h
    obtain ⟨h1, -⟩ := Prod.mk.inj h
    rw [List.nil_append, ← h1]
    simp
  | cons hd tl ih =>
    intro rest o₀ h
    obtain ⟨hub, gl⟩ := hd
    rw [runAll] at h
    cases hh : get_hub_data env hub gl with
    | mk out res =>
      rw [hh] at h
      cases res with
      | error e => simp at h
      | ok u =>
        simp only [] at h
        obtain ⟨h1, h2⟩ := Prod.mk.inj h
        rw [List.cons_append, runAll, hh]
        simp only []
        rw [ih rest (runAll env tl).1 (by rw [← h2])]
        rw [← h1]
        simp [List.append_assoc]

theorem get_hub_data_loop_error (env : Env) (hub : String) (gl : List String)
    (out : List OutLine) (e : String)
    (h : hubLoop env initAcc gl = (out, .error e)) :
    get_hub_data env hub gl = (out, .error e) := by
  unfold get_hub_data
  rw [h]

/-- C1 (amended): when a data getter fails for a geography of a hub, the
hub's aggregation is aborted with a diagnostic line naming that geography
and the error re-raised; hubs BEFORE it in the hub list are unaffected, but
no hub AFTER it is processed — the uncaught error terminates the whole run
(the top-level loop has no per-hub exception handling). -/
theorem hub_failure_aborts_run (env : Env)
    (pre post : List (String × List String)) (hub : String)
    (gs₁ gs₂ : List String) (g : String) (o₀ : List OutLine)
    (st : GeoData × Int × Int × Int × Int) (e : String)
    (hpre : runAll env pre = (o₀, .ok ()))
    (hloop : hubLoop env initAcc gs₁ = ([], .ok st))
    (hg : (get_geo_data env g).2 = .error e) :
    runAll env (pre ++ (hub, gs₁ ++ g :: gs₂) :: post) =
      (o₀ ++ [OutLine.diag g], .error e) := by
  have hgd : get_geo_data env g = ([OutLine.diag g], .error e) := by
    rcases get_geo_data_cases env g with ⟨gd, h1⟩ | ⟨e2, h1⟩
    · rw [h1] at hg
      exact absurd hg (by simp)
    · rw [h1] at hg
      injection hg with he
      rw [h1, he]
  have hfail : hubLoop env st (g :: gs₂) = ([OutLine.diag g], .error e) := by
    simp only [hubLoop, hgd]
  have hfull : hubLoop env initAcc (gs₁ ++ g :: gs₂) =
      ([OutLine.diag g], .error e) := by
    rw [hubLoop_append_ok env gs₁ initAcc [] st hloop (g :: gs₂), hfail]
    rfl
  have hhub : get_hub_data env hub (gs₁ ++ g :: gs₂) =
      ([OutLine.diag g], .error e) :=
    get_hub_data_loop_error env hub _ _ e hfull
  rw [runAll_append_ok env pre _ o₀ hpre]
  rw [show runAll env ((hub, gs₁ ++ g :: gs₂) :: post) =
      ([OutLine.diag g], .error e) from by simp only [runAll, hhub]]

/-- An environment that fails only for Los Angeles County
(`05000US06037`, the first geography of the first hub) and returns unit
totals for every other geography. -/
def envFail : Env :=
  ⟨fun g => if g = "05000US06037" then .error "FetchError"
    else .ok (unitTotals ageKeys),
   fun g => if g = "05000US06037" then .error "FetchError"
    else .ok (unitTotals raceKeys),
   fun g => if g = "05000US06037" then .error "FetchError"
    else .ok (unitTotals languageKeys),
   fun g => if g = "05000US06037" then .error "FetchError"
    else .ok (unitTotals incomeKeys)⟩

/-- C1 counterexample: with a failure only in the first hub's first
geography, the whole run over the real `hub_list` produces exactly the one
diagnostic line and the re-raised error — no later hub (Ohio among them)
contributes any output, even though Ohio's own aggregation would succeed
under the same environment.  This refutes the claim that every hub after
the failing one is still processed. -/
theorem run_stops_at_first_hub_failure :
    runAll envFail hub_list =
      ([OutLine.diag "05000US06037"], .error "FetchError")
    ∧ (get_hub_data envFail "Ohio" ["04000US39"]).2 = .ok () :=
  ⟨rfl, rfl⟩

/-- All getters fail for every geography. -/
def envErr : Env :=
  ⟨fun _ => .error "FetchError", fun _ => .error "FetchError",
   fun _ => .error "FetchError", fun _ => .error "FetchError"⟩

/-- Witness for C1's amended theorem: hub `"A"` (before the failure) emits
its row, hub `"B"` aborts at geography `"g2"` with the diagnostic line, and
hub `"C"` (after the failure) is never processed. -/
theorem hub_failure_aborts_run_witness :
    runAll envErr ([("A", [])] ++ ("B", [] ++ "g2" :: []) :: [("C", [])]) =
      ([OutLine.bare "A"] ++ [OutLine.diag "g2"], .error "FetchError") :=
  hub_failure_aborts_run envErr [("A", [])] [("C", [])] "B" [] [] "g2"
    [OutLine.bare "A"] initAcc "FetchError" rfl rfl rfl
